import Mathlib

set_option autoImplicit false

/-!
Shallow embedding of the battle engine of `advent-wizard-rpg`.

The repository contains two structurally identical copies of the engine
state (`src/game.rs` and `src/rpg.rs`): the `Wizard`, `Boss`, `Spell` and
`Battle` types and every primitive operation are textually the same in
both files.  `src/rpg.rs` additionally defines the four fine-grained
transitions (`wizard_turn_apply_effects`, `wizard_turn_cast_spell`,
`boss_turn_apply_effects`, `boss_turn_attack`) and `src/game.rs` the two
coarse ones (`wizard_turn`, `boss_turn`).  We embed a single state type
carrying all six transitions.

Rust `i32` fields are modelled as `Int` (all quantities stay far from the
i32 range in every scenario considered, so wrap-around never matters),
`Option<i32>` timers as `Option Int`, the `FxHashSet<Spell>` as
`Finset Spell`, and the `Vec<Spell>` log as `List Spell`.  Mutation is
modelled by state passing: each operation returns the updated values.
A Rust `panic!` is modelled by an `Option`/dedicated result constructor.
-/

namespace AdventWizardRpg

/-- Rust `Spell` enumeration, from `src/rpg.rs` lines 62-69. -/
inductive Spell where
  | MagicMissile
  | Drain
  | Shield
  | Poison
  | Recharge
deriving DecidableEq

/-- Rust `Spell::get_mana`, from `src/rpg.rs` lines 72-80. -/
def Spell.get_mana : Spell → Int
  | Spell.MagicMissile => 53
  | Spell.Drain => 73
  | Spell.Shield => 113
  | Spell.Poison => 173
  | Spell.Recharge => 229

/-- Rust `Boss` struct, from `src/rpg.rs` lines 3-8. -/
structure Boss where
  hitpoints : Int
  damage : Int
  poisoned : Option Int
deriving DecidableEq

/-- Rust `Wizard` struct, from `src/rpg.rs` lines 93-101. -/
structure Wizard where
  hitpoints : Int
  armor : Int
  mana : Int
  shielded : Option Int
  recharging : Option Int
  possible_spells : Finset Spell
deriving DecidableEq

/-- Rust `Boss::attack`, from `src/rpg.rs` lines 30-37.  Only the enemy wizard
is mutated (the boss is read-only there), so the updated wizard is
returned. -/
def Boss.attack (b : Boss) (enemy : Wizard) : Wizard :=
  let adjusted_damage := if b.damage - enemy.armor ≤ 0 then 1 else b.damage - enemy.armor
  { enemy with hitpoints := enemy.hitpoints - adjusted_damage }

/-- Rust `Boss::apply_effect`, from `src/rpg.rs` lines 39-47. -/
def Boss.apply_effect (b : Boss) : Boss :=
  match b.poisoned with
  | none => b
  | some poison_timer =>
    let t := poison_timer - 1
    { b with
        hitpoints := b.hitpoints - 3
        poisoned := if t = 0 then none else some t }

/-- Rust `Wizard::magic_missile`, from `src/rpg.rs` lines 133-136. -/
def Wizard.magic_missile (w : Wizard) (enemy : Boss) : Wizard × Boss :=
  ({ w with mana := w.mana - Spell.MagicMissile.get_mana },
   { enemy with hitpoints := enemy.hitpoints - 4 })

/-- Rust `Wizard::drain`, from `src/rpg.rs` lines 138-142. -/
def Wizard.drain (w : Wizard) (enemy : Boss) : Wizard × Boss :=
  ({ w with
      mana := w.mana - Spell.Drain.get_mana
      hitpoints := w.hitpoints + 2 },
   { enemy with hitpoints := enemy.hitpoints - 2 })

/-- Rust `Wizard::shield`, from `src/rpg.rs` lines 144-152.  The
`panic!("Can not shield with existing shield")` branch is modelled as
`none`. -/
def Wizard.shield (w : Wizard) : Option Wizard :=
  let w1 := { w with mana := w.mana - Spell.Shield.get_mana }
  if w1.shielded.isSome then none
  else some { w1 with shielded := some 6, armor := 7 }

/-- Rust `Wizard::poison`, from `src/rpg.rs` lines 154-161.  The panic branch
is modelled as `none`. -/
def Wizard.poison (w : Wizard) (enemy : Boss) : Option (Wizard × Boss) :=
  let w1 := { w with mana := w.mana - Spell.Poison.get_mana }
  if enemy.poisoned.isSome then none
  else some (w1, { enemy with poisoned := some 6 })

/-- Rust `Wizard::recharge`, from `src/rpg.rs` lines 163-170.  The panic
branch is modelled as `none`. -/
def Wizard.recharge (w : Wizard) : Option Wizard :=
  let w1 := { w with mana := w.mana - Spell.Recharge.get_mana }
  if w1.recharging.isSome then none
  else some { w1 with recharging := some 5 }

/-- Rust `Wizard::apply_effect`, from `src/rpg.rs` lines 172-187: tick the
shield timer (clearing armor when it reaches 0), then the recharge timer
(adding 101 mana on each tick). -/
def Wizard.apply_effect (w : Wizard) : Wizard :=
  let w1 :=
    match w.shielded with
    | none => w
    | some shield_timer =>
      let t := shield_timer - 1
      if t = 0 then { w with armor := 0, shielded := none }
      else { w with shielded := some t }
  match w1.recharging with
  | none => w1
  | some recharge_timer =>
    let t := recharge_timer - 1
    { w1 with
        mana := w1.mana + 101
        recharging := if t = 0 then none else some t }

/-- Rust `Wizard::update_possible_spells`, from `src/rpg.rs` lines 189-221:
per spell, insert it into / remove it from the cached set according to
the legality condition. -/
def Wizard.update_possible_spells (w : Wizard) (enemy : Boss) : Wizard :=
  let s := w.possible_spells
  let s := if Spell.MagicMissile.get_mana ≤ w.mana then insert Spell.MagicMissile s
           else s.erase Spell.MagicMissile
  let s := if Spell.Drain.get_mana ≤ w.mana then insert Spell.Drain s
           else s.erase Spell.Drain
  let s := if Spell.Shield.get_mana ≤ w.mana ∧ (w.shielded = none ∨ w.shielded = some 1) then
             insert Spell.Shield s
           else s.erase Spell.Shield
  let s := if Spell.Poison.get_mana ≤ w.mana ∧ (enemy.poisoned = none ∨ enemy.poisoned = some 1) then
             insert Spell.Poison s
           else s.erase Spell.Poison
  let s := if Spell.Recharge.get_mana ≤ w.mana ∧ (w.recharging = none ∨ w.recharging = some 1) then
             insert Spell.Recharge s
           else s.erase Spell.Recharge
  { w with possible_spells := s }

/-- Rust `Boss::new` / `Boss::new_custom`, from `src/rpg.rs` lines 22-28. -/
def Boss.new (hitpoints damage : Int) : Boss :=
  { hitpoints := hitpoints, damage := damage, poisoned := none }

/-- Rust `Boss::default`, from `src/rpg.rs` lines 10-18. -/
def Boss.default : Boss := Boss.new 55 8

/-- Rust `Wizard::new` / `Wizard::new_custom`, from `src/rpg.rs` lines
119-131: the initial legal-spell set is computed against a default
boss. -/
def Wizard.new (hitpoints mana : Int) : Wizard :=
  Wizard.update_possible_spells
    { hitpoints := hitpoints
      armor := 0
      mana := mana
      shielded := none
      recharging := none
      possible_spells := ∅ }
    Boss.default

/-- Rust `Wizard::default`, from `src/rpg.rs` lines 103-116. -/
def Wizard.default : Wizard := Wizard.new 50 500

/-- Rust `Battle` struct, from `src/rpg.rs` lines 248-257.  `outcome` is
`some true` when the wizard has won, `some false` when the boss has
won. -/
structure Battle where
  wizard : Wizard
  boss : Boss
  hard_mode : Bool
  mana_used : Int
  spells_used : List Spell
  outcome : Option Bool
deriving DecidableEq

/-- Rust `Battle::new`, from `src/rpg.rs` lines 262-272. -/
def Battle.new (wizard : Wizard) (boss : Boss) (hard_mode : Bool) : Battle :=
  { wizard := wizard
    boss := boss
    hard_mode := hard_mode
    mana_used := 0
    spells_used := []
    outcome := none }

/-- Rust `Battle::default`, from `src/rpg.rs` line 248 (`derive(Default)`). -/
def Battle.default : Battle := Battle.new Wizard.default Boss.default false

/-- Result of a cast-bearing transition (`wizard_turn_cast_spell` in
`src/rpg.rs`, `wizard_turn` in `src/game.rs`).
`err` is `Err(EffectOngoingError())` — the state is returned untouched,
mirroring the early `return Err` before any mutation;
`panicked` is a `panic!` inside a cast primitive;
`ok out s` is `Ok(out)` together with the updated state. -/
inductive CastResult where
  | err (s : Battle)
  | panicked
  | ok (out : Option Bool) (s : Battle)
deriving DecidableEq

/-- The spell-dispatch `match` shared by `Battle::wizard_turn_cast_spell`
(`src/rpg.rs` lines 306-312) and `Battle::wizard_turn` (`src/game.rs`
lines 253-259).  `none` means a primitive panicked. -/
def Battle.cast_dispatch (s : Battle) (spell : Spell) : Option Battle :=
  match spell with
  | Spell.MagicMissile =>
    let (w, b) := s.wizard.magic_missile s.boss
    some { s with wizard := w, boss := b }
  | Spell.Drain =>
    let (w, b) := s.wizard.drain s.boss
    some { s with wizard := w, boss := b }
  | Spell.Shield => (s.wizard.shield).map fun w => { s with wizard := w }
  | Spell.Poison =>
    (s.wizard.poison s.boss).map fun p => { s with wizard := p.1, boss := p.2 }
  | Spell.Recharge => (s.wizard.recharge).map fun w => { s with wizard := w }

/-- Rust `Battle::wizard_turn_apply_effects`, from `src/rpg.rs` lines 276-293:
on hard mode, the wizard first takes 1 damage and the boss wins
immediately on a kill (skipping effect application); otherwise both
sides' effects tick and the wizard wins if the boss is now dead. -/
def Battle.wizard_turn_apply_effects (s : Battle) : Option Bool × Battle :=
  if s.hard_mode then
    let w := { s.wizard with hitpoints := s.wizard.hitpoints - 1 }
    if w.hitpoints ≤ 0 then (some false, { s with wizard := w, outcome := some false })
    else
      let s2 := { s with wizard := w.apply_effect, boss := s.boss.apply_effect }
      if s2.boss.hitpoints ≤ 0 then (some true, { s2 with outcome := some true })
      else (none, s2)
  else
    let s2 := { s with wizard := s.wizard.apply_effect, boss := s.boss.apply_effect }
    if s2.boss.hitpoints ≤ 0 then (some true, { s2 with outcome := some true })
    else (none, s2)

/-- Rust `Battle::wizard_turn_cast_spell`, from `src/rpg.rs` lines 297-322:
reject a spell outside the cached legal set without mutation, otherwise
dispatch the cast, account its mana, log it, and check for a boss
death. -/
def Battle.wizard_turn_cast_spell (s : Battle) (spell : Spell) : CastResult :=
  if spell ∈ s.wizard.possible_spells then
    match s.cast_dispatch spell with
    | none => CastResult.panicked
    | some s1 =>
      let s2 := { s1 with
                    mana_used := s1.mana_used + spell.get_mana
                    spells_used := s1.spells_used ++ [spell] }
      if s2.boss.hitpoints ≤ 0 then CastResult.ok (some true) { s2 with outcome := some true }
      else CastResult.ok none s2
  else CastResult.err s

/-- Rust `Battle::boss_turn_apply_effects`, from `src/rpg.rs` lines 326-335:
both sides' effects tick and the wizard wins if the boss is now dead. -/
def Battle.boss_turn_apply_effects (s : Battle) : Option Bool × Battle :=
  let s2 := { s with wizard := s.wizard.apply_effect, boss := s.boss.apply_effect }
  if s2.boss.hitpoints ≤ 0 then (some true, { s2 with outcome := some true })
  else (none, s2)

/-- Rust `Battle::boss_turn_attack`, from `src/rpg.rs` lines 337-347: the boss
attacks; the boss wins if the wizard is now dead, otherwise the legal
spell set is recomputed. -/
def Battle.boss_turn_attack (s : Battle) : Option Bool × Battle :=
  let w := s.boss.attack s.wizard
  if w.hitpoints ≤ 0 then (some false, { s with wizard := w, outcome := some false })
  else (none, { s with wizard := w.update_possible_spells s.boss })

/-- Rust `Battle::wizard_turn`, from `src/game.rs` lines 236-268 (the coarse
entry point): legality check, hard-mode self-damage and loss check, both
sides' effects, the cast, accounting, boss-death check.  Note that no
boss-death check happens between effect application and the cast. -/
def Battle.wizard_turn (s : Battle) (spell : Spell) : CastResult :=
  if spell ∈ s.wizard.possible_spells then
    let s1 :=
      if s.hard_mode then
        { s with wizard := { s.wizard with hitpoints := s.wizard.hitpoints - 1 } }
      else s
    if s.hard_mode ∧ s1.wizard.hitpoints ≤ 0 then
      CastResult.ok (some false) { s1 with outcome := some false }
    else
      let s2 := { s1 with wizard := s1.wizard.apply_effect, boss := s1.boss.apply_effect }
      match s2.cast_dispatch spell with
      | none => CastResult.panicked
      | some s3 =>
        let s4 := { s3 with
                      mana_used := s3.mana_used + spell.get_mana
                      spells_used := s3.spells_used ++ [spell] }
        if s4.boss.hitpoints ≤ 0 then CastResult.ok (some true) { s4 with outcome := some true }
        else CastResult.ok none s4
  else CastResult.err s

/-- Rust `Battle::boss_turn`, from `src/game.rs` lines 272-290 (the coarse
entry point): both sides' effects and boss-death check, then the attack
and wizard-death check, then the legal-set recomputation. -/
def Battle.boss_turn (s : Battle) : Option Bool × Battle :=
  let s2 := { s with wizard := s.wizard.apply_effect, boss := s.boss.apply_effect }
  if s2.boss.hitpoints ≤ 0 then (some true, { s2 with outcome := some true })
  else
    let w := s2.boss.attack s2.wizard
    if w.hitpoints ≤ 0 then (some false, { s2 with wizard := w, outcome := some false })
    else (none, { s2 with wizard := w.update_possible_spells s2.boss })

/-- The state carried by a `CastResult`, with a fallback for the panic
case (a Rust panic aborts, so no state is observable there). -/
def CastResult.state (r : CastResult) (fallback : Battle) : Battle :=
  match r with
  | CastResult.err s => s
  | CastResult.panicked => fallback
  | CastResult.ok _ s => s

/-- One coarse round: `wizard_turn(spell)` then, when it reports neither
an error nor an outcome, `boss_turn()` — the pairing used by the embedded
test in `src/game.rs` and by the spec's end-to-end scenario. -/
def Battle.coarseRound (s : Battle) (spell : Spell) : CastResult :=
  match s.wizard_turn spell with
  | CastResult.err s1 => CastResult.err s1
  | CastResult.panicked => CastResult.panicked
  | CastResult.ok (some b) s1 => CastResult.ok (some b) s1
  | CastResult.ok none s1 =>
    let r := s1.boss_turn
    CastResult.ok r.1 r.2

/-- One fine-grained round: the four transitions of `src/rpg.rs` in the
prescribed order, short-circuiting as soon as an outcome or error is
reported — the guard pattern of the UI driver in `src/main.rs` (each
wrapper returns early once `get_outcome()` is set). -/
def Battle.fineRound (s : Battle) (spell : Spell) : CastResult :=
  match s.wizard_turn_apply_effects with
  | (some b, s1) => CastResult.ok (some b) s1
  | (none, s1) =>
    match s1.wizard_turn_cast_spell spell with
    | CastResult.err s2 => CastResult.err s2
    | CastResult.panicked => CastResult.panicked
    | CastResult.ok (some b) s2 => CastResult.ok (some b) s2
    | CastResult.ok none s2 =>
      match s2.boss_turn_apply_effects with
      | (some b, s3) => CastResult.ok (some b) s3
      | (none, s3) =>
        let r := s3.boss_turn_attack
        CastResult.ok r.1 r.2

/-- Play a list of chosen spells through coarse rounds, stopping at the
first error, panic or decided outcome. -/
def playCoarse (init : Battle) (spells : List Spell) : CastResult :=
  spells.foldl
    (fun r spell =>
      match r with
      | CastResult.ok none s => s.coarseRound spell
      | other => other)
    (CastResult.ok none init)

/-- Battle states reachable through the engine's constructors and
transition operations (`panic!` aborts, so it yields no state). -/
inductive Reach : Battle → Prop where
  | new_battle (wh wm bh bd : Int) (hm : Bool) :
      Reach (Battle.new (Wizard.new wh wm) (Boss.new bh bd) hm)
  | wizard_effects {s : Battle} : Reach s → Reach (s.wizard_turn_apply_effects).2
  | boss_effects {s : Battle} : Reach s → Reach (s.boss_turn_apply_effects).2
  | boss_attack_step {s : Battle} : Reach s → Reach (s.boss_turn_attack).2
  | boss_turn_step {s : Battle} : Reach s → Reach (s.boss_turn).2
  | cast_err {s s' : Battle} {sp : Spell} :
      Reach s → s.wizard_turn_cast_spell sp = CastResult.err s' → Reach s'
  | cast_ok {s s' : Battle} {sp : Spell} {r : Option Bool} :
      Reach s → s.wizard_turn_cast_spell sp = CastResult.ok r s' → Reach s'
  | turn_err {s s' : Battle} {sp : Spell} :
      Reach s → s.wizard_turn sp = CastResult.err s' → Reach s'
  | turn_ok {s s' : Battle} {sp : Spell} {r : Option Bool} :
      Reach s → s.wizard_turn sp = CastResult.ok r s' → Reach s'

/-- The cached legal-spell set is consistent with the three
self-exclusive timers: a spell in the set has its blocking timer absent
or exactly 1 (about to expire on the next tick).  This is exactly what
`update_possible_spells` establishes, and it is what makes the `panic!`
branches of the cast primitives unreachable. -/
def spells_fresh (w : Wizard) (b : Boss) : Prop :=
  (Spell.Shield ∈ w.possible_spells → w.shielded = none ∨ w.shielded = some 1)
  ∧ (Spell.Poison ∈ w.possible_spells → b.poisoned = none ∨ b.poisoned = some 1)
  ∧ (Spell.Recharge ∈ w.possible_spells → w.recharging = none ∨ w.recharging = some 1)

/-- The predicate `spells_fresh` read off a battle state. -/
def Battle.cast_safe (s : Battle) : Prop := spells_fresh s.wizard s.boss

/-- The end-to-end scenario's starting battle:
Wizard(hitpoints 10, mana 250) vs Boss(hitpoints 14, damage 8), normal
mode — the embedded test `solution::battle_simple` of `src/game.rs`. -/
def c5_init : Battle := Battle.new (Wizard.new 10 250) (Boss.new 14 8) false

/-- A battle one cast away from a wizard win: the wizard can finish the
1-hitpoint boss with Magic Missile while itself at 2 hitpoints. -/
def c1_start : Battle := Battle.new (Wizard.new 2 250) (Boss.new 1 8) false

/-- State `c1_start` after the wizard kills the boss with Magic Missile:
`outcome` is already `some true` here. -/
def c1_after_cast : Battle :=
  (c1_start.wizard_turn_cast_spell Spell.MagicMissile).state c1_start

/-- A battle whose boss (3 hitpoints, poison timer 2) will die from the
poison tick during the wizard's own effect-application phase. -/
def c2_start : Battle :=
  Battle.new (Wizard.new 10 100) { hitpoints := 3, damage := 8, poisoned := some 2 } false

/-- A battle whose wizard is mid-recharge and cannot afford Poison: an
illegal cast attempt exposes the divergence between the coarse and the
fine-grained round. -/
def c3_start : Battle :=
  Battle.new { Wizard.new 50 100 with recharging := some 2 } (Boss.new 20 8) false

/-- The state the fine-grained round leaves behind when the illegal
Poison cast from `c3_start` is rejected. -/
def c3_fine_state : Battle := (c3_start.fineRound Spell.Poison).state c3_start

/-- The default battle right after a legal Recharge cast: mana and the
recharging timer changed, but the cached `possible_spells` was not
recomputed. -/
def c4_after : Battle :=
  (Battle.wizard_turn_cast_spell Battle.default Spell.Recharge).state Battle.default

/-- The default battle after the boss's attack (which recomputes the
legal-spell set). -/
def c4_attacked : Battle := (Battle.boss_turn_attack Battle.default).2

/-! ## Helper lemmas -/

/-- Membership in an insert-or-erase update, for the updated element. -/
theorem mem_self_ite {α : Type} [DecidableEq α] (c : Prop) [Decidable c] (a : α) (s : Finset α) :
    (a ∈ if c then insert a s else s.erase a) ↔ c := by
  split <;> simp_all

/-- Membership in an insert-or-erase update, for any other element. -/
theorem mem_other_ite {α : Type} [DecidableEq α] (c : Prop) [Decidable c] {a x : α} (s : Finset α)
    (hne : x ≠ a) :
    (x ∈ if c then insert a s else s.erase a) ↔ x ∈ s := by
  split <;> simp_all

/-- Membership in the set rebuilt by `update_possible_spells` depends
only on the wizard's mana and the three timers, never on the previous
set contents: a spell is in the rebuilt set iff its mana cost is covered
and (for the three self-exclusive spells) the blocking timer is absent
or exactly 1. -/
theorem mem_update_possible_spells (w : Wizard) (b : Boss) (sp : Spell) :
    sp ∈ (w.update_possible_spells b).possible_spells ↔
      (sp.get_mana ≤ w.mana
        ∧ (sp = Spell.Shield → w.shielded = none ∨ w.shielded = some 1)
        ∧ (sp = Spell.Poison → b.poisoned = none ∨ b.poisoned = some 1)
        ∧ (sp = Spell.Recharge → w.recharging = none ∨ w.recharging = some 1)) := by
  cases sp <;>
    simp [Wizard.update_possible_spells, mem_self_ite, mem_other_ite]

/-- Recomputing the legal-spell set twice in a row changes nothing. -/
theorem update_possible_spells_idem (w : Wizard) (b : Boss) :
    ((w.update_possible_spells b).update_possible_spells b).possible_spells
      = (w.update_possible_spells b).possible_spells := by
  ext sp
  rw [mem_update_possible_spells, mem_update_possible_spells]
  exact Iff.rfl

/-- Calling `update_possible_spells` establishes the timer consistency that
makes the cast primitives' panic branches unreachable. -/
theorem spells_fresh_update (w : Wizard) (b : Boss) :
    spells_fresh (w.update_possible_spells b) b := by
  refine ⟨fun h => ?_, fun h => ?_, fun h => ?_⟩
  · exact ((mem_update_possible_spells w b Spell.Shield).1 h).2.1 rfl
  · exact ((mem_update_possible_spells w b Spell.Poison).1 h).2.2.1 rfl
  · exact ((mem_update_possible_spells w b Spell.Recharge).1 h).2.2.2 rfl

/-- A shield that is absent or on its last tick is gone after one
effect application. -/
theorem apply_effect_shielded_none (w : Wizard)
    (h : w.shielded = none ∨ w.shielded = some 1) :
    (w.apply_effect).shielded = none := by
  rcases h with h | h <;> cases hr : w.recharging <;>
    simp [Wizard.apply_effect, h, hr]

/-- A recharge that is absent or on its last tick is gone after one
effect application. -/
theorem apply_effect_recharging_none (w : Wizard)
    (h : w.recharging = none ∨ w.recharging = some 1) :
    (w.apply_effect).recharging = none := by
  rcases h with h | h <;> cases hs : w.shielded <;>
    simp [Wizard.apply_effect, h, hs] <;> split_ifs <;> simp

/-- A poison that is absent or on its last tick is gone after one
effect application. -/
theorem boss_apply_effect_poisoned_none (b : Boss)
    (h : b.poisoned = none ∨ b.poisoned = some 1) :
    (b.apply_effect).poisoned = none := by
  rcases h with h | h <;> simp [Boss.apply_effect, h]

/-- Effect application never touches the cached legal-spell set. -/
theorem apply_effect_possible_spells (w : Wizard) :
    (w.apply_effect).possible_spells = w.possible_spells := by
  cases hs : w.shielded <;> cases hr : w.recharging <;>
    simp [Wizard.apply_effect, hs, hr] <;> split_ifs <;> simp

/-- The spell-dispatch `match` leaves the battle bookkeeping fields and
the cached legal set untouched, and can only lower the boss's
hitpoints. -/
theorem cast_dispatch_some_inv {s : Battle} {sp : Spell} {s1 : Battle}
    (h : s.cast_dispatch sp = some s1) :
    s1.hard_mode = s.hard_mode ∧ s1.mana_used = s.mana_used ∧ s1.spells_used = s.spells_used
      ∧ s1.outcome = s.outcome ∧ s1.wizard.possible_spells = s.wizard.possible_spells
      ∧ s1.boss.hitpoints ≤ s.boss.hitpoints := by
  cases sp <;>
    simp only [Battle.cast_dispatch, Wizard.magic_missile, Wizard.drain, Wizard.shield,
      Wizard.poison, Wizard.recharge, Option.map_eq_some', Option.some.injEq] at h
  case MagicMissile => subst h; refine ⟨rfl, rfl, rfl, rfl, rfl, by simp⟩
  case Drain => subst h; refine ⟨rfl, rfl, rfl, rfl, rfl, by simp⟩
  case Shield =>
    obtain ⟨w, hw, rfl⟩ := h
    split at hw
    · exact absurd hw (by simp)
    · cases hw; exact ⟨rfl, rfl, rfl, rfl, rfl, le_refl _⟩
  case Poison =>
    obtain ⟨p, hp, rfl⟩ := h
    split at hp
    · exact absurd hp (by simp)
    · cases hp; exact ⟨rfl, rfl, rfl, rfl, rfl, le_refl _⟩
  case Recharge =>
    obtain ⟨w, hw, rfl⟩ := h
    split at hw
    · exact absurd hw (by simp)
    · cases hw; exact ⟨rfl, rfl, rfl, rfl, rfl, le_refl _⟩

/-- When the blocking timer of the chosen spell is clear, the dispatch
cannot hit a panic branch. -/
theorem cast_dispatch_ne_none (s : Battle) (sp : Spell)
    (h1 : sp = Spell.Shield → s.wizard.shielded = none)
    (h2 : sp = Spell.Poison → s.boss.poisoned = none)
    (h3 : sp = Spell.Recharge → s.wizard.recharging = none) :
    s.cast_dispatch sp ≠ none := by
  cases sp <;>
    simp [Battle.cast_dispatch, Wizard.magic_missile, Wizard.drain, Wizard.shield,
      Wizard.poison, Wizard.recharge]
  case Shield => simp [h1 rfl]
  case Poison => simp [h2 rfl]
  case Recharge => simp [h3 rfl]

/-- Freshly constructed battles satisfy the timer consistency: all
timers start absent. -/
theorem cast_safe_new (wh wm bh bd : Int) (hm : Bool) :
    (Battle.new (Wizard.new wh wm) (Boss.new bh bd) hm).cast_safe :=
  ⟨fun _ => Or.inl rfl, fun _ => Or.inl rfl, fun _ => Or.inl rfl⟩

/-- A surviving `boss_turn_attack` re-establishes the timer consistency
(it ends by recomputing the legal-spell set). -/
theorem cast_safe_after_boss_attack {s s' : Battle}
    (h : s.boss_turn_attack = (none, s')) : s'.cast_safe := by
  unfold Battle.boss_turn_attack at h
  dsimp only at h
  split_ifs at h
  · cases h
  · cases h; exact spells_fresh_update _ _

/-- A surviving coarse `boss_turn` re-establishes the timer
consistency. -/
theorem cast_safe_after_boss_turn {s s' : Battle}
    (h : s.boss_turn = (none, s')) : s'.cast_safe := by
  unfold Battle.boss_turn at h
  dsimp only at h
  split_ifs at h
  · cases h
  · cases h
  · cases h; exact spells_fresh_update _ _

/-- Inversion of a no-outcome `wizard_turn_apply_effects`: the resulting
state is the hard-mode-damaged state after one effect application on
both sides, and the cached legal set is untouched. -/
theorem wtae_none_inv {s s1 : Battle} (h : s.wizard_turn_apply_effects = (none, s1)) :
    s1.wizard = (if s.hard_mode then { s.wizard with hitpoints := s.wizard.hitpoints - 1 }
                 else s.wizard).apply_effect
    ∧ s1.boss = s.boss.apply_effect
    ∧ s1.wizard.possible_spells = s.wizard.possible_spells := by
  unfold Battle.wizard_turn_apply_effects at h
  dsimp only at h
  split_ifs at h with hm hk hb hb <;>
    simp only [Prod.mk.injEq, reduceCtorEq, false_and] at h
  · obtain ⟨-, rfl⟩ := h
    exact ⟨by simp [hm], rfl, by simp [hm, apply_effect_possible_spells]⟩
  · obtain ⟨-, rfl⟩ := h
    exact ⟨by simp [hm], rfl, by simp [hm, apply_effect_possible_spells]⟩

/-- Bookkeeping inversion of `wizard_turn_apply_effects`: the cast log
and mana accounting are untouched, and the outcome is either inherited
or freshly set. -/
theorem wtae_book (s : Battle) :
    (s.wizard_turn_apply_effects).2.mana_used = s.mana_used
    ∧ (s.wizard_turn_apply_effects).2.spells_used = s.spells_used
    ∧ ((s.wizard_turn_apply_effects).2.outcome = s.outcome
        ∨ ((s.wizard_turn_apply_effects).2.outcome).isSome = true) := by
  unfold Battle.wizard_turn_apply_effects
  dsimp only
  split_ifs <;> simp

/-- Bookkeeping inversion of `boss_turn_apply_effects`. -/
theorem btae_book (s : Battle) :
    (s.boss_turn_apply_effects).2.mana_used = s.mana_used
    ∧ (s.boss_turn_apply_effects).2.spells_used = s.spells_used
    ∧ ((s.boss_turn_apply_effects).2.outcome = s.outcome
        ∨ ((s.boss_turn_apply_effects).2.outcome).isSome = true) := by
  unfold Battle.boss_turn_apply_effects
  dsimp only
  split_ifs <;> simp

/-- Bookkeeping inversion of `boss_turn_attack`. -/
theorem bta_book (s : Battle) :
    (s.boss_turn_attack).2.mana_used = s.mana_used
    ∧ (s.boss_turn_attack).2.spells_used = s.spells_used
    ∧ ((s.boss_turn_attack).2.outcome = s.outcome
        ∨ ((s.boss_turn_attack).2.outcome).isSome = true) := by
  unfold Battle.boss_turn_attack
  dsimp only
  split_ifs <;> simp

/-- Bookkeeping inversion of the coarse `boss_turn`. -/
theorem bt_book (s : Battle) :
    (s.boss_turn).2.mana_used = s.mana_used
    ∧ (s.boss_turn).2.spells_used = s.spells_used
    ∧ ((s.boss_turn).2.outcome = s.outcome
        ∨ ((s.boss_turn).2.outcome).isSome = true) := by
  unfold Battle.boss_turn
  dsimp only
  split_ifs <;> simp

/-- Inversion of a successful `wizard_turn_cast_spell`: the spell is
appended to the log, its cost added to the total, and the outcome is
inherited or freshly set. -/
theorem cast_spell_ok_inv {s : Battle} {sp : Spell} {r : Option Bool} {s' : Battle}
    (h : s.wizard_turn_cast_spell sp = CastResult.ok r s') :
    s'.spells_used = s.spells_used ++ [sp]
    ∧ s'.mana_used = s.mana_used + sp.get_mana
    ∧ (s'.outcome = s.outcome ∨ s'.outcome.isSome = true) := by
  unfold Battle.wizard_turn_cast_spell at h
  dsimp only at h
  by_cases hmem : sp ∈ s.wizard.possible_spells
  · rw [if_pos hmem] at h
    split at h
    · cases h
    · rename_i s3 hd
      obtain ⟨-, hmana, hspells, houtcome, -, -⟩ := cast_dispatch_some_inv hd
      split_ifs at h <;> cases h <;>
        exact ⟨by simp [hspells], by simp [hmana], by simp [houtcome]⟩
  · rw [if_neg hmem] at h
    cases h

/-- Inversion of a rejected `wizard_turn_cast_spell`: the state is
returned untouched and the spell was indeed outside the cached set. -/
theorem cast_spell_err_inv {s : Battle} {sp : Spell} {s' : Battle}
    (h : s.wizard_turn_cast_spell sp = CastResult.err s') :
    s' = s ∧ sp ∉ s.wizard.possible_spells := by
  unfold Battle.wizard_turn_cast_spell at h
  dsimp only at h
  by_cases hmem : sp ∈ s.wizard.possible_spells
  · rw [if_pos hmem] at h
    split at h
    · cases h
    · split_ifs at h <;> cases h
  · rw [if_neg hmem] at h
    cases h
    exact ⟨rfl, hmem⟩

/-- Inversion of a successful coarse `wizard_turn`: either the cast went
through (log appended, cost added) or hard mode killed the wizard first
(no cast, boss win reported); in both cases the outcome is inherited or
freshly set. -/
theorem turn_ok_inv {s : Battle} {sp : Spell} {r : Option Bool} {s' : Battle}
    (h : s.wizard_turn sp = CastResult.ok r s') :
    ((s'.spells_used = s.spells_used ++ [sp] ∧ s'.mana_used = s.mana_used + sp.get_mana)
      ∨ (r = some false ∧ s'.spells_used = s.spells_used ∧ s'.mana_used = s.mana_used))
    ∧ (s'.outcome = s.outcome ∨ s'.outcome.isSome = true) := by
  unfold Battle.wizard_turn at h
  dsimp only at h
  by_cases hmem : sp ∈ s.wizard.possible_spells
  · rw [if_pos hmem] at h
    cases hm : s.hard_mode
    · simp only [hm, Bool.false_eq_true, false_and, if_false] at h
      split at h
      · cases h
      · rename_i s3 hd
        obtain ⟨-, hmana, hspells, houtcome, -, -⟩ := cast_dispatch_some_inv hd
        split_ifs at h <;> cases h <;>
          exact ⟨Or.inl ⟨by simp [hspells], by simp [hmana]⟩, by simp [houtcome]⟩
    · simp only [hm, true_and, if_true] at h
      by_cases hkill : s.wizard.hitpoints - 1 ≤ 0
      · rw [if_pos hkill] at h
        cases h
        exact ⟨Or.inr ⟨rfl, by simp, by simp⟩, Or.inr (by simp)⟩
      · rw [if_neg hkill] at h
        split at h
        · cases h
        · rename_i s3 hd
          obtain ⟨-, hmana, hspells, houtcome, -, -⟩ := cast_dispatch_some_inv hd
          split_ifs at h <;> cases h <;>
            exact ⟨Or.inl ⟨by simp [hspells], by simp [hmana]⟩, by simp [houtcome]⟩
  · rw [if_neg hmem] at h
    cases h

/-- Inversion of a rejected coarse `wizard_turn`. -/
theorem turn_err_inv {s : Battle} {sp : Spell} {s' : Battle}
    (h : s.wizard_turn sp = CastResult.err s') :
    s' = s ∧ sp ∉ s.wizard.possible_spells := by
  unfold Battle.wizard_turn at h
  dsimp only at h
  by_cases hmem : sp ∈ s.wizard.possible_spells
  · rw [if_pos hmem] at h
    cases hm : s.hard_mode
    · simp only [hm, Bool.false_eq_true, false_and, if_false] at h
      split at h
      · cases h
      · split_ifs at h <;> cases h
    · simp only [hm, true_and, if_true] at h
      by_cases hkill : s.wizard.hitpoints - 1 ≤ 0
      · rw [if_pos hkill] at h; cases h
      · rw [if_neg hkill] at h
        split at h
        · cases h
        · split_ifs at h <;> cases h
  · rw [if_neg hmem] at h
    cases h
    exact ⟨rfl, hmem⟩

/-- The coarse `boss_turn` is exactly `boss_turn_apply_effects` followed
(when no outcome was reported) by `boss_turn_attack`. -/
theorem boss_turn_split (s : Battle) :
    s.boss_turn = (match s.boss_turn_apply_effects with
      | (some b, s1) => (some b, s1)
      | (none, s1) => s1.boss_turn_attack) := by
  unfold Battle.boss_turn Battle.boss_turn_apply_effects Battle.boss_turn_attack
  dsimp only
  split_ifs <;> simp_all
  rw [if_neg (by omega)]

/-! ## Further helper lemmas and concrete states -/

/-- The outcome recorded in the final state of a run, when it completed
without error or panic. -/
def CastResult.final_outcome : CastResult → Option Bool
  | CastResult.ok _ s => s.outcome
  | _ => none

/-- The cast log of the final state of a run, when it completed without
error or panic. -/
def CastResult.spells_logged : CastResult → Option (List Spell)
  | CastResult.ok _ s => some s.spells_used
  | _ => none

/-- State `c2_start` after the coarse `wizard_turn(MagicMissile)`. -/
def c2_after : Battle := (c2_start.wizard_turn Spell.MagicMissile).state c2_start

/-- State `c2_start` after hard-mode damage (none here) and both sides'
effect application — the state the cast dispatch sees inside the coarse
`wizard_turn`. -/
def c2_mid : Battle :=
  { c2_start with
      wizard := (if c2_start.hard_mode then
                   { c2_start.wizard with hitpoints := c2_start.wizard.hitpoints - 1 }
                 else c2_start.wizard).apply_effect
      boss := Boss.apply_effect c2_start.boss }

/-- The state produced by dispatching Magic Missile from `c2_mid`. -/
def c2_s3 : Battle :=
  match Battle.cast_dispatch c2_mid Spell.MagicMissile with
  | some s => s
  | none => c2_start

/-- A dispatch can only return `none` (panic) for one of the three
self-exclusive spells, and only when the corresponding blocking timer is
present. -/
theorem cast_dispatch_none_inv {t : Battle} {sp : Spell} (h : t.cast_dispatch sp = none) :
    (sp = Spell.Shield ∧ t.wizard.shielded ≠ none)
    ∨ (sp = Spell.Poison ∧ t.boss.poisoned ≠ none)
    ∨ (sp = Spell.Recharge ∧ t.wizard.recharging ≠ none) := by
  cases sp <;>
    simp [Battle.cast_dispatch, Wizard.magic_missile, Wizard.drain, Wizard.shield,
      Wizard.poison, Wizard.recharge] at h
  · exact Or.inl ⟨rfl, h⟩
  · exact Or.inr (Or.inl ⟨rfl, h⟩)
  · exact Or.inr (Or.inr ⟨rfl, h⟩)

/-- When the wizard's half of the round reaches its cast with the same
intermediate state on both paths, the fine-grained round and the coarse
round agree. -/
theorem fine_coarse_tail {s : Battle} {sp : Spell} {s2 : Battle}
    (hwtae : s.wizard_turn_apply_effects = (none, s2))
    (hwt : s.wizard_turn sp = s2.wizard_turn_cast_spell sp) :
    s.fineRound sp = s.coarseRound sp := by
  unfold Battle.fineRound Battle.coarseRound
  rw [hwtae, hwt]
  dsimp only
  cases hres : s2.wizard_turn_cast_spell sp
  case err s' => rfl
  case panicked => rfl
  case ok r s4 =>
    cases r
    case none =>
      dsimp only
      rw [boss_turn_split s4]
      cases hbtae : s4.boss_turn_apply_effects
      rename_i r5 s5
      cases r5 <;> rfl
    case some b => rfl

/-! ## Claim C1 -/

/-- Claim C1, counterexample: the engine does no defensive
short-circuiting.  From Wizard(2, 250) vs Boss(1, 8), casting Magic
Missile kills the boss and sets `outcome = some true`; a subsequent
`boss_turn_attack` call nevertheless lets the dead boss attack, mutates
the wizard's hitpoints and overwrites the outcome with `some false`. -/
theorem outcome_overwritten_cex :
    c1_start.wizard_turn_cast_spell Spell.MagicMissile = CastResult.ok (some true) c1_after_cast
    ∧ c1_after_cast.outcome = some true
    ∧ (c1_after_cast.boss_turn_attack).2.outcome = some false
    ∧ (c1_after_cast.boss_turn_attack).2.wizard.hitpoints ≠ c1_after_cast.wizard.hitpoints :=
  ⟨by decide, by decide, by decide, by decide⟩

/-- Claim C1 (amended): once the outcome is set it is never cleared —
every transition leaves it `some` — but the transitions do not
short-circuit: a call made after the outcome is set may still mutate
state and may overwrite the outcome's value, so stopping is the
caller's responsibility (the UI driver checks `get_outcome` before
every call). -/
theorem outcome_never_cleared (s : Battle) (h : s.outcome.isSome = true) :
    ((s.wizard_turn_apply_effects).2.outcome).isSome = true
    ∧ ((s.boss_turn_apply_effects).2.outcome).isSome = true
    ∧ ((s.boss_turn_attack).2.outcome).isSome = true
    ∧ ((s.boss_turn).2.outcome).isSome = true
    ∧ (∀ sp s', s.wizard_turn_cast_spell sp = CastResult.err s' → s'.outcome.isSome = true)
    ∧ (∀ sp r s', s.wizard_turn_cast_spell sp = CastResult.ok r s' → s'.outcome.isSome = true)
    ∧ (∀ sp s', s.wizard_turn sp = CastResult.err s' → s'.outcome.isSome = true)
    ∧ (∀ sp r s', s.wizard_turn sp = CastResult.ok r s' → s'.outcome.isSome = true) := by
  refine ⟨?_, ?_, ?_, ?_, ?_, ?_, ?_, ?_⟩
  · rcases (wtae_book s).2.2 with he | he
    · rw [he]; exact h
    · exact he
  · rcases (btae_book s).2.2 with he | he
    · rw [he]; exact h
    · exact he
  · rcases (bta_book s).2.2 with he | he
    · rw [he]; exact h
    · exact he
  · rcases (bt_book s).2.2 with he | he
    · rw [he]; exact h
    · exact he
  · intro sp s' hc
    rw [(cast_spell_err_inv hc).1]
    exact h
  · intro sp r s' hc
    rcases (cast_spell_ok_inv hc).2.2 with he | he
    · rw [he]; exact h
    · exact he
  · intro sp s' hc
    rw [(turn_err_inv hc).1]
    exact h
  · intro sp r s' hc
    rcases (turn_ok_inv hc).2 with he | he
    · rw [he]; exact h
    · exact he

/-- Claim C1 (amended), witness at the concrete decided state
`c1_after_cast`. -/
theorem outcome_never_cleared_witness :
    ((c1_after_cast.boss_turn_attack).2.outcome).isSome = true :=
  (outcome_never_cleared c1_after_cast (by decide)).2.2.1

/-! ## Claim C2 -/

/-- Claim C2, counterexample: from `c2_start` (boss at 3 hitpoints with
poison timer 2, Magic Missile legal), the poison tick during the coarse
`wizard_turn`'s effect phase drops the boss to 0, yet the call still
casts the spell: mana is debited (100 to 47), `mana_used` becomes 53 and
`spells_used` gains the spell, before the outcome is set to a wizard
win. -/
theorem mid_effects_kill_still_casts_cex :
    Spell.MagicMissile ∈ c2_start.wizard.possible_spells
    ∧ (Boss.apply_effect c2_start.boss).hitpoints ≤ 0
    ∧ c2_start.mana_used = 0 ∧ c2_start.spells_used = [] ∧ c2_start.wizard.mana = 100
    ∧ c2_start.wizard_turn Spell.MagicMissile = CastResult.ok (some true) c2_after
    ∧ c2_after.outcome = some true
    ∧ c2_after.mana_used = 53
    ∧ c2_after.spells_used = [Spell.MagicMissile]
    ∧ c2_after.wizard.mana = 47 := by
  refine ⟨by decide, by decide, by decide, by decide, by decide, by decide, by decide,
    by decide, by decide, by decide⟩

/-- Claim C2 (amended): when the boss's hitpoints drop to 0 or below
during the effect-application phase of a coarse `wizard_turn` with a
legal spell (and hard mode does not kill the wizard first), the call
does not short-circuit: the spell is still dispatched, its cost is added
to `mana_used` and the spell appended to `spells_used`; only then is the
outcome set to a wizard win, which is still reported because a cast can
never raise the boss's hitpoints. -/
theorem wizard_turn_effects_kill (s : Battle) (sp : Spell) (s3 : Battle)
    (h1 : sp ∈ s.wizard.possible_spells)
    (h2 : ¬(s.hard_mode = true ∧ s.wizard.hitpoints - 1 ≤ 0))
    (h3 : (Boss.apply_effect s.boss).hitpoints ≤ 0)
    (h4 : Battle.cast_dispatch
            { s with
                wizard := (if s.hard_mode then { s.wizard with hitpoints := s.wizard.hitpoints - 1 }
                           else s.wizard).apply_effect
                boss := s.boss.apply_effect } sp = some s3) :
    s.wizard_turn sp =
      CastResult.ok (some true)
        { s3 with
            mana_used := s3.mana_used + sp.get_mana
            spells_used := s3.spells_used ++ [sp]
            outcome := some true }
    ∧ s3.mana_used = s.mana_used ∧ s3.spells_used = s.spells_used := by
  obtain ⟨-, hmana, hspells, -, -, hble⟩ := cast_dispatch_some_inv h4
  have hb3 : s3.boss.hitpoints ≤ 0 := by
    refine le_trans hble ?_
    dsimp only
    exact h3
  refine ⟨?_, by simpa using hmana, by simpa using hspells⟩
  unfold Battle.wizard_turn
  dsimp only
  rw [if_pos h1]
  cases hm : s.hard_mode
  · simp only [hm, Bool.false_eq_true, false_and, if_false]
    simp only [hm, Bool.false_eq_true, if_false] at h4
    rw [h4]
    dsimp only
    rw [if_pos hb3]
  · simp only [hm, true_and, if_true]
    have hkill : ¬(s.wizard.hitpoints - 1 ≤ 0) := fun hh => h2 ⟨hm, hh⟩
    rw [if_neg hkill]
    simp only [hm, if_true] at h4
    rw [h4]
    dsimp only
    rw [if_pos hb3]

/-- Claim C2 (amended), witness at `c2_start` with Magic Missile. -/
theorem wizard_turn_effects_kill_witness :
    c2_s3.mana_used = c2_start.mana_used ∧ c2_s3.spells_used = c2_start.spells_used :=
  ⟨(wizard_turn_effects_kill c2_start Spell.MagicMissile c2_s3
      (by decide) (by decide) (by decide) (by decide)).2.1,
   (wizard_turn_effects_kill c2_start Spell.MagicMissile c2_s3
      (by decide) (by decide) (by decide) (by decide)).2.2⟩

/-! ## Claim C3 -/

/-- Claim C3, counterexample: the two round orchestrations are not
equivalent for every state and spell.  From `c3_start` (wizard
mid-recharge, Poison unaffordable) the coarse round rejects the illegal
Poison cast with no mutation (mana stays 100), while the fine-grained
round first applies effects (recharge adds 101 mana) and only then
rejects the cast, leaving mana at 201: same error, different final
state. -/
theorem round_refinement_cex :
    Battle.coarseRound c3_start Spell.Poison = CastResult.err c3_start
    ∧ Battle.fineRound c3_start Spell.Poison = CastResult.err c3_fine_state
    ∧ c3_start.wizard.mana = 100
    ∧ c3_fine_state.wizard.mana = 201 :=
  ⟨by decide, by decide, by decide, by decide⟩

/-- Claim C3 (amended): the coarse round `wizard_turn(spell); boss_turn()`
and the fine-grained round (the four transitions with the driver's
short-circuiting guards) yield the same result and the same final state
whenever the chosen spell is in the legal set and the boss is not
finished by the wizard-half effect application (either hard mode kills
the wizard first, or the boss survives the effects); outside those
conditions the two paths genuinely diverge. -/
theorem round_refinement (s : Battle) (sp : Spell)
    (h1 : sp ∈ s.wizard.possible_spells)
    (h2 : (s.hard_mode = true ∧ s.wizard.hitpoints - 1 ≤ 0)
          ∨ 0 < (Boss.apply_effect s.boss).hitpoints) :
    s.fineRound sp = s.coarseRound sp := by
  cases hm : s.hard_mode
  · have hb : 0 < (Boss.apply_effect s.boss).hitpoints := by
      rcases h2 with ⟨hmm, -⟩ | hb
      · rw [hm] at hmm; cases hmm
      · exact hb
    refine @fine_coarse_tail s sp
      ({ s with
          wizard := s.wizard.apply_effect
          boss := s.boss.apply_effect }) ?_ ?_
    · unfold Battle.wizard_turn_apply_effects
      simp only [hm, Bool.false_eq_true, if_false]
      rw [if_neg (by omega)]
    · have hmem2 : sp ∈ (s.wizard.apply_effect).possible_spells := by
        rw [apply_effect_possible_spells]
        exact h1
      unfold Battle.wizard_turn Battle.wizard_turn_cast_spell
      dsimp only
      rw [if_pos h1, if_pos hmem2]
      simp only [hm, Bool.false_eq_true, false_and, if_false]
  · by_cases hkill : s.wizard.hitpoints - 1 ≤ 0
    · unfold Battle.fineRound Battle.coarseRound Battle.wizard_turn_apply_effects
        Battle.wizard_turn
      dsimp only
      rw [if_pos h1]
      simp only [hm, true_and, if_true]
      simp only [if_pos hkill]
    · have hb : 0 < (Boss.apply_effect s.boss).hitpoints := by
        rcases h2 with ⟨-, hk⟩ | hb
        · exact absurd hk hkill
        · exact hb
      refine @fine_coarse_tail s sp
        ({ s with
            wizard := ({ s.wizard with hitpoints := s.wizard.hitpoints - 1 }).apply_effect
            boss := s.boss.apply_effect }) ?_ ?_
      · unfold Battle.wizard_turn_apply_effects
        simp only [hm, if_true]
        rw [if_neg (by omega), if_neg (by omega)]
      · have hmem2 : sp ∈
            (({ s.wizard with hitpoints := s.wizard.hitpoints - 1 }).apply_effect).possible_spells := by
          rw [apply_effect_possible_spells]
          exact h1
        unfold Battle.wizard_turn Battle.wizard_turn_cast_spell
        dsimp only
        rw [if_pos h1]
        simp only [hm, true_and, if_true]
        rw [if_neg hkill, if_pos hmem2]

/-- Claim C3 (amended), witness at the default battle with Magic
Missile. -/
theorem round_refinement_witness :
    Battle.fineRound Battle.default Spell.MagicMissile
      = Battle.coarseRound Battle.default Spell.MagicMissile :=
  round_refinement Battle.default Spell.MagicMissile (by decide) (Or.inr (by decide))

/-! ## Claim C4 -/

/-- Claim C4, counterexample: the cached legal-spell set is not
recomputed after a cast.  Casting Recharge from the default battle
changes mana and starts the recharge timer, yet the cache still contains
Recharge while a recomputation from the current state excludes it — the
cache is stale until the next `boss_turn_attack`. -/
theorem possible_spells_stale_cex :
    Battle.wizard_turn_cast_spell Battle.default Spell.Recharge = CastResult.ok none c4_after
    ∧ Spell.Recharge ∈ c4_after.wizard.possible_spells
    ∧ Spell.Recharge ∉ (c4_after.wizard.update_possible_spells c4_after.boss).possible_spells
    ∧ c4_after.wizard.possible_spells
        ≠ (c4_after.wizard.update_possible_spells c4_after.boss).possible_spells :=
  ⟨by decide, by decide, by decide, by decide⟩

/-- Claim C4 (amended): the legal-spell set is recomputed only at wizard
construction and at the end of a surviving `boss_turn_attack` /
`boss_turn`; immediately after those recomputation points the cache
agrees exactly with the legal set computed from the current wizard and
boss state (recomputation is idempotent), while between a cast or an
effect application and the next recomputation it may be stale. -/
theorem possible_spells_fresh_after_attack (s : Battle) :
    (∀ s', s.boss_turn_attack = (none, s') →
      s'.wizard.possible_spells = (s'.wizard.update_possible_spells s'.boss).possible_spells)
    ∧ (∀ s', s.boss_turn = (none, s') →
      s'.wizard.possible_spells = (s'.wizard.update_possible_spells s'.boss).possible_spells) := by
  constructor <;> intro s' h
  · unfold Battle.boss_turn_attack at h
    dsimp only at h
    split_ifs at h <;> simp only [Prod.mk.injEq, reduceCtorEq, false_and] at h
    obtain ⟨-, rfl⟩ := h
    exact (update_possible_spells_idem _ _).symm
  · unfold Battle.boss_turn at h
    dsimp only at h
    split_ifs at h <;> simp only [Prod.mk.injEq, reduceCtorEq, false_and] at h
    obtain ⟨-, rfl⟩ := h
    exact (update_possible_spells_idem _ _).symm

/-- Claim C4 (amended), witness right after the default battle's first
boss attack. -/
theorem possible_spells_fresh_after_attack_witness :
    c4_attacked.wizard.possible_spells
      = (c4_attacked.wizard.update_possible_spells c4_attacked.boss).possible_spells :=
  (possible_spells_fresh_after_attack Battle.default).1 c4_attacked (by decide)

/-! ## Claim C5 -/

/-- Claim C5: from Wizard(hitpoints 10, mana 250) vs Boss(hitpoints 14,
damage 8) in normal mode, playing Recharge, Shield, Drain, Poison,
Magic Missile in that order through the coarse `wizard_turn`/`boss_turn`
pairing raises no legality error (and no panic) at any step, casts all
five spells, and ends with the outcome set to a wizard win. -/
theorem end_to_end_scenario_wizard_wins :
    (playCoarse c5_init
        [Spell.Recharge, Spell.Shield, Spell.Drain, Spell.Poison, Spell.MagicMissile]).final_outcome
      = some true
    ∧ (playCoarse c5_init
        [Spell.Recharge, Spell.Shield, Spell.Drain, Spell.Poison, Spell.MagicMissile]).spells_logged
      = some [Spell.Recharge, Spell.Shield, Spell.Drain, Spell.Poison, Spell.MagicMissile] :=
  ⟨by decide, by decide⟩

/-! ## Claim C6 -/

/-- Claim C6: under correct engine usage the cast primitives' panic
branches are unreachable.  If the cached legal set is consistent with
the timers (`cast_safe`, which `update_possible_spells` establishes at
construction and at the end of every surviving boss attack) and the
chosen spell passed the legality check, then the coarse `wizard_turn`
cannot panic; and along the fine-grained path, after a no-outcome
`wizard_turn_apply_effects` the blocking timer of the chosen spell is
`none` at the moment the cast runs, so `wizard_turn_cast_spell` cannot
panic either. -/
theorem cast_panic_unreachable (s : Battle) (hsafe : s.cast_safe) (sp : Spell)
    (hsp : sp ∈ s.wizard.possible_spells) :
    s.wizard_turn sp ≠ CastResult.panicked
    ∧ ∀ s1, s.wizard_turn_apply_effects = (none, s1) →
        ((sp = Spell.Shield → s1.wizard.shielded = none)
         ∧ (sp = Spell.Poison → s1.boss.poisoned = none)
         ∧ (sp = Spell.Recharge → s1.wizard.recharging = none)
         ∧ s1.wizard_turn_cast_spell sp ≠ CastResult.panicked) := by
  obtain ⟨hS, hP, hR⟩ := hsafe
  constructor
  · intro hcontra
    unfold Battle.wizard_turn at hcontra
    dsimp only at hcontra
    rw [if_pos hsp] at hcontra
    cases hm : s.hard_mode
    · simp only [hm, Bool.false_eq_true, false_and, if_false] at hcontra
      split at hcontra
      · rename_i hd
        rcases cast_dispatch_none_inv hd with ⟨he, hts⟩ | ⟨he, hts⟩ | ⟨he, hts⟩ <;>
          subst he <;> dsimp only at hts
        · exact hts (apply_effect_shielded_none _ (hS hsp))
        · exact hts (boss_apply_effect_poisoned_none _ (hP hsp))
        · exact hts (apply_effect_recharging_none _ (hR hsp))
      · split_ifs at hcontra <;> cases hcontra
    · simp only [hm, true_and, if_true] at hcontra
      by_cases hkill : s.wizard.hitpoints - 1 ≤ 0
      · rw [if_pos hkill] at hcontra; cases hcontra
      · rw [if_neg hkill] at hcontra
        split at hcontra
        · rename_i hd
          rcases cast_dispatch_none_inv hd with ⟨he, hts⟩ | ⟨he, hts⟩ | ⟨he, hts⟩ <;>
            subst he <;> dsimp only at hts
          · exact hts (apply_effect_shielded_none _ (hS hsp))
          · exact hts (boss_apply_effect_poisoned_none _ (hP hsp))
          · exact hts (apply_effect_recharging_none _ (hR hsp))
        · split_ifs at hcontra <;> cases hcontra
  · intro s1 h1
    obtain ⟨hw, hb, hps⟩ := wtae_none_inv h1
    have hsel : (if s.hard_mode then { s.wizard with hitpoints := s.wizard.hitpoints - 1 }
                 else s.wizard).shielded = s.wizard.shielded := by split <;> rfl
    have hrel : (if s.hard_mode then { s.wizard with hitpoints := s.wizard.hitpoints - 1 }
                 else s.wizard).recharging = s.wizard.recharging := by split <;> rfl
    have hS1 : sp = Spell.Shield → s1.wizard.shielded = none := by
      intro he; subst he
      rw [hw]
      exact apply_effect_shielded_none _ (by rw [hsel]; exact hS hsp)
    have hP1 : sp = Spell.Poison → s1.boss.poisoned = none := by
      intro he; subst he
      rw [hb]
      exact boss_apply_effect_poisoned_none _ (hP hsp)
    have hR1 : sp = Spell.Recharge → s1.wizard.recharging = none := by
      intro he; subst he
      rw [hw]
      exact apply_effect_recharging_none _ (by rw [hrel]; exact hR hsp)
    refine ⟨hS1, hP1, hR1, ?_⟩
    intro hcontra
    unfold Battle.wizard_turn_cast_spell at hcontra
    dsimp only at hcontra
    rw [if_pos (show sp ∈ s1.wizard.possible_spells by rw [hps]; exact hsp)] at hcontra
    split at hcontra
    · rename_i hd
      rcases cast_dispatch_none_inv hd with ⟨he, hts⟩ | ⟨he, hts⟩ | ⟨he, hts⟩
      · exact hts (hS1 he)
      · exact hts (hP1 he)
      · exact hts (hR1 he)
    · split_ifs at hcontra <;> cases hcontra

/-- Claim C6, witness: casting Shield from the default battle (whose
timers are all clear) cannot hit a panic branch. -/
theorem cast_panic_unreachable_witness :
    Spell.Shield ∈ Battle.default.wizard.possible_spells
    ∧ Battle.default.wizard_turn Spell.Shield ≠ CastResult.panicked :=
  ⟨by decide,
   (cast_panic_unreachable Battle.default
      ⟨fun _ => Or.inl rfl, fun _ => Or.inl rfl, fun _ => Or.inl rfl⟩
      Spell.Shield (by decide)).1⟩

/-! ## Claim C7 -/

/-- Claim C7: casting a spell outside the cached legal set is rejected
with the typed `EffectOngoingError` and mutates nothing, on both the
fine-grained `wizard_turn_cast_spell` and the coarse `wizard_turn`: the
returned state is exactly the input state. -/
theorem illegal_cast_rejected (s : Battle) (sp : Spell)
    (h : sp ∉ s.wizard.possible_spells) :
    s.wizard_turn_cast_spell sp = CastResult.err s ∧ s.wizard_turn sp = CastResult.err s := by
  constructor
  · unfold Battle.wizard_turn_cast_spell
    dsimp only
    rw [if_neg h]
  · unfold Battle.wizard_turn
    dsimp only
    rw [if_neg h]

/-- Claim C7, witness: a 10-mana wizard cannot cast Poison, and both
entry points reject it without mutation. -/
theorem illegal_cast_rejected_witness :
    Spell.Poison ∉ (Battle.new (Wizard.new 50 10) (Boss.new 55 8) false).wizard.possible_spells
    ∧ (Battle.new (Wizard.new 50 10) (Boss.new 55 8) false).wizard_turn_cast_spell Spell.Poison
        = CastResult.err (Battle.new (Wizard.new 50 10) (Boss.new 55 8) false)
    ∧ (Battle.new (Wizard.new 50 10) (Boss.new 55 8) false).wizard_turn Spell.Poison
        = CastResult.err (Battle.new (Wizard.new 50 10) (Boss.new 55 8) false) :=
  ⟨by decide,
   (illegal_cast_rejected (Battle.new (Wizard.new 50 10) (Boss.new 55 8) false) Spell.Poison
      (by decide)).1,
   (illegal_cast_rejected (Battle.new (Wizard.new 50 10) (Boss.new 55 8) false) Spell.Poison
      (by decide)).2⟩

/-! ## Claim C8 -/

/-- Claim C8: after `update_possible_spells`, a spell is in the set iff
the wizard's current mana covers its cost (53, 73, 113, 173, 229) and,
for Shield / Poison / Recharge, the corresponding timer (wizard's
shield, boss's poison, wizard's recharge) is absent or exactly 1; in
particular no spell costing more than the current mana is ever in the
set. -/
theorem legal_spell_set_spec (w : Wizard) (b : Boss) (sp : Spell) :
    (sp ∈ (w.update_possible_spells b).possible_spells ↔
      (sp.get_mana ≤ w.mana
        ∧ (sp = Spell.Shield → w.shielded = none ∨ w.shielded = some 1)
        ∧ (sp = Spell.Poison → b.poisoned = none ∨ b.poisoned = some 1)
        ∧ (sp = Spell.Recharge → w.recharging = none ∨ w.recharging = some 1)))
    ∧ (w.mana < sp.get_mana → sp ∉ (w.update_possible_spells b).possible_spells) := by
  refine ⟨mem_update_possible_spells w b sp, fun hlt hmem => ?_⟩
  exact absurd ((mem_update_possible_spells w b sp).1 hmem).1 (by omega)

/-- Claim C8, witness: a 10-mana wizard's recomputed set excludes even
the cheapest spell. -/
theorem legal_spell_set_spec_witness :
    (Wizard.new 50 10).mana < Spell.MagicMissile.get_mana
    ∧ Spell.MagicMissile ∉ ((Wizard.new 50 10).update_possible_spells Boss.default).possible_spells :=
  ⟨by decide,
   (legal_spell_set_spec (Wizard.new 50 10) Boss.default Spell.MagicMissile).2 (by decide)⟩

/-! ## Claim C9 -/

/-- Claim C9: for every armor and damage value, a boss attack reduces
the wizard's hitpoints by exactly `max 1 (damage - armor)` — the
difference when it is at least 1, and a floor of exactly 1 when armor
meets or exceeds the damage — and changes no other wizard field (nor the
boss, which the attack never writes). -/
theorem boss_attack_damage_spec (b : Boss) (w : Wizard) :
    (b.attack w).hitpoints = w.hitpoints - max 1 (b.damage - w.armor)
    ∧ (b.attack w).armor = w.armor
    ∧ (b.attack w).mana = w.mana
    ∧ (b.attack w).shielded = w.shielded
    ∧ (b.attack w).recharging = w.recharging
    ∧ (b.attack w).possible_spells = w.possible_spells := by
  unfold Boss.attack
  dsimp only
  refine ⟨?_, rfl, rfl, rfl, rfl, rfl⟩
  split_ifs with hc
  · rw [max_eq_left (by omega)]
  · rw [max_eq_right (by omega)]

/-- The mana-accounting invariant itself, by induction over reachable
states. -/
theorem reach_mana_sum {s : Battle} (h : Reach s) :
    s.mana_used = (s.spells_used.map Spell.get_mana).sum := by
  induction h with
  | new_battle wh wm bh bd hm => rfl
  | wizard_effects h ih => rw [(wtae_book _).1, (wtae_book _).2.1]; exact ih
  | boss_effects h ih => rw [(btae_book _).1, (btae_book _).2.1]; exact ih
  | boss_attack_step h ih => rw [(bta_book _).1, (bta_book _).2.1]; exact ih
  | boss_turn_step h ih => rw [(bt_book _).1, (bt_book _).2.1]; exact ih
  | cast_err h hc ih => rw [(cast_spell_err_inv hc).1]; exact ih
  | cast_ok h hc ih =>
    obtain ⟨hs, hmn, -⟩ := cast_spell_ok_inv hc
    rw [hmn, hs]
    simp [ih]
  | turn_err h hc ih => rw [(turn_err_inv hc).1]; exact ih
  | turn_ok h hc ih =>
    rcases (turn_ok_inv hc).1 with ⟨hs, hmn⟩ | ⟨-, hs, hmn⟩ <;> rw [hmn, hs] <;> simp [ih]

/-! ## Claim C10 -/

/-- Claim C10: in every battle state reachable through the engine's
constructors and transitions, `mana_used` equals the sum of the costs of
the spells in `spells_used`; each successful cast appends exactly one
entry and adds exactly its cost (the coarse `wizard_turn` may instead
report a hard-mode loss without casting, changing neither field), a
rejected cast returns the state unchanged, and no other transition
touches either field. -/
theorem mana_spell_accounting (s : Battle) (h : Reach s) :
    s.mana_used = (s.spells_used.map Spell.get_mana).sum
    ∧ (∀ sp r s', s.wizard_turn_cast_spell sp = CastResult.ok r s' →
        s'.spells_used = s.spells_used ++ [sp] ∧ s'.mana_used = s.mana_used + sp.get_mana)
    ∧ (∀ sp r s', s.wizard_turn sp = CastResult.ok r s' →
        (s'.spells_used = s.spells_used ++ [sp] ∧ s'.mana_used = s.mana_used + sp.get_mana)
        ∨ (r = some false ∧ s'.spells_used = s.spells_used ∧ s'.mana_used = s.mana_used))
    ∧ (∀ sp s', s.wizard_turn_cast_spell sp = CastResult.err s' → s' = s)
    ∧ (∀ sp s', s.wizard_turn sp = CastResult.err s' → s' = s)
    ∧ (s.wizard_turn_apply_effects).2.mana_used = s.mana_used
    ∧ (s.wizard_turn_apply_effects).2.spells_used = s.spells_used
    ∧ (s.boss_turn_apply_effects).2.mana_used = s.mana_used
    ∧ (s.boss_turn_apply_effects).2.spells_used = s.spells_used
    ∧ (s.boss_turn_attack).2.mana_used = s.mana_used
    ∧ (s.boss_turn_attack).2.spells_used = s.spells_used
    ∧ (s.boss_turn).2.mana_used = s.mana_used
    ∧ (s.boss_turn).2.spells_used = s.spells_used :=
  ⟨reach_mana_sum h,
   fun _ _ _ hc => ⟨(cast_spell_ok_inv hc).1, (cast_spell_ok_inv hc).2.1⟩,
   fun _ _ _ hc => (turn_ok_inv hc).1,
   fun _ _ hc => (cast_spell_err_inv hc).1,
   fun _ _ hc => (turn_err_inv hc).1,
   (wtae_book s).1, (wtae_book s).2.1,
   (btae_book s).1, (btae_book s).2.1,
   (bta_book s).1, (bta_book s).2.1,
   (bt_book s).1, (bt_book s).2.1⟩

/-- Claim C10, witness: the invariant evaluated one cast into the
default battle (Recharge cast: `mana_used = 229 = sum of costs`). -/
theorem mana_spell_accounting_witness :
    c4_after.mana_used = (c4_after.spells_used.map Spell.get_mana).sum :=
  (mana_spell_accounting c4_after
    (@Reach.cast_ok Battle.default c4_after Spell.Recharge none
      (Reach.new_battle 50 500 55 8 false) (by decide))).1


end AdventWizardRpg
